import Mathlib

/-!
Shallow embedding of the sailhouse/sdk-go client library, centred on the
parts the specification makes claims about: the push-subscription
signature verifier (`push_subscriptions.go`), the subscription
processing engine (`subscriber.go`) and the pull endpoint of the
transport layer (`client.go`).

Machine integers (`int64`) are modelled as `Int` with explicit
two's-complement wraparound where Go arithmetic can overflow.
HMAC-SHA256 itself is treated as an abstract digest function (the spec
places the cryptographic primitive out of scope); everything around it
(header parsing, timestamp validation, hex encoding/decoding, the
constant-time comparison's accept/reject result) is modelled from the
source.
-/

namespace Sailhouse

/-! ## int64 arithmetic -/

/-- Two's-complement wraparound into the `int64` range, as Go arithmetic
performs it. -/
def wrap64 (x : Int) : Int :=
  (x + 2 ^ 63) % 2 ^ 64 - 2 ^ 63

/-- Go `int64` subtraction `a - b` (wraps on overflow). -/
def int64Sub (a b : Int) : Int :=
  wrap64 (a - b)

/-! ## Strings: Go helpers used by the verifier -/

/-- Characters with the Unicode White_Space property, as tested by Go's
`unicode.IsSpace` (used by `strings.TrimSpace`). -/
def isGoSpace (c : Char) : Bool :=
  decide (c.toNat = 0x20) || decide (0x9 ≤ c.toNat ∧ c.toNat ≤ 0xD) ||
  decide (c.toNat = 0x85) || decide (c.toNat = 0xA0) ||
  decide (c.toNat = 0x1680) || decide (0x2000 ≤ c.toNat ∧ c.toNat ≤ 0x200A) ||
  decide (c.toNat = 0x2028) || decide (c.toNat = 0x2029) ||
  decide (c.toNat = 0x202F) || decide (c.toNat = 0x205F) ||
  decide (c.toNat = 0x3000)

/-- Go `strings.TrimSpace`. -/
def trimSpace (s : String) : String :=
  String.mk (((s.toList.dropWhile isGoSpace).reverse.dropWhile isGoSpace).reverse)

/-- Go `strings.SplitN(s, "=", 2)`: split at the first `=`; `none` when the
string contains no `=` (the `len(parts) != 2` case in the source). -/
def splitEq2 (s : String) : Option (String × String) :=
  let cs := s.toList
  let pre := cs.takeWhile (fun c => !(c = '=' : Bool))
  let rest := cs.dropWhile (fun c => !(c = '=' : Bool))
  match rest with
  | [] => none
  | _ :: tail => some (String.mk pre, String.mk tail)

/-- Go `strconv.ParseInt(s, 10, 64)`: optional sign, at least one ASCII
digit, value within the `int64` range; `none` on any parse or range
error. -/
def parseInt64 (s : String) : Option Int :=
  match s.toList with
  | [] => none
  | c :: rest =>
    let (neg, digits) :=
      if c = '-' then (true, rest)
      else if c = '+' then (false, rest)
      else (false, c :: rest)
    if digits.isEmpty then none
    else if digits.all (fun d => decide ('0' ≤ d) && decide (d ≤ '9')) then
      let n : Nat := digits.foldl (fun acc d => acc * 10 + (d.toNat - '0'.toNat)) 0
      let v : Int := if neg then -(n : Int) else (n : Int)
      if decide (-(2 ^ 63) ≤ v) && decide (v ≤ 2 ^ 63 - 1) then some v else none
    else none

/-! ## Hex encoding and decoding (Go `encoding/hex`) -/

/-- Lower-case hex digit for a value below 16, as produced by
`hex.EncodeToString`. -/
def hexDigitChar (n : Nat) : Char :=
  if n < 10 then Char.ofNat ('0'.toNat + n) else Char.ofNat ('a'.toNat + (n - 10))

/-- Value of a hex digit character; `hex.DecodeString` accepts `0-9`,
`a-f` and `A-F`. -/
def hexDigitVal (c : Char) : Option Nat :=
  if decide ('0' ≤ c) && decide (c ≤ '9') then some (c.toNat - '0'.toNat)
  else if decide ('a' ≤ c) && decide (c ≤ 'f') then some (c.toNat - 'a'.toNat + 10)
  else if decide ('A' ≤ c) && decide (c ≤ 'F') then some (c.toNat - 'A'.toNat + 10)
  else none

/-- Go `hex.EncodeToString` over a byte list (bytes as `Nat` below 256). -/
def hexEncodeChars : List Nat → List Char
  | [] => []
  | b :: bs => hexDigitChar (b / 16) :: hexDigitChar (b % 16) :: hexEncodeChars bs

/-- String version of `hexEncodeChars`. -/
def hexEncode (bs : List Nat) : String :=
  String.mk (hexEncodeChars bs)

/-- Go `hex.DecodeString` over characters: decodes pairs of hex digits,
fails on an odd length or a non-hex character. -/
def hexDecodeChars : List Char → Option (List Nat)
  | [] => some []
  | [_] => none
  | hi :: lo :: rest =>
    match hexDigitVal hi, hexDigitVal lo, hexDecodeChars rest with
    | some h, some l, some bs => some ((h * 16 + l) :: bs)
    | _, _, _ => none

/-- String version of `hexDecodeChars`. -/
def hexDecode (s : String) : Option (List Nat) :=
  hexDecodeChars s.toList

/-! ## Push-subscription signature verifier (`push_subscriptions.go`) -/

/-- `PushSubscriptionVerificationError`: a message plus a machine-readable
code. -/
structure VerificationError where
  message : String
  code : String
deriving DecidableEq, Repr

/-- `SignatureComponents`: the parsed `t` (int64) and `v1` values of the
`Sailhouse-Signature` header. -/
structure SignatureComponents where
  timestamp : Int
  signature : String
deriving DecidableEq, Repr

/-- `VerificationOptions`: tolerance for timestamp validation, in
seconds. -/
structure VerificationOptions where
  tolerance : Int
deriving DecidableEq, Repr

/-- Accumulator of the element loop in `parseSignatureHeader`: the four
local variables `timestamp`, `signature`, `hasTimestamp`,
`hasSignature`, with their Go zero values as the initial state. -/
structure ParseState where
  timestamp : Int := 0
  signature : String := ""
  hasT : Bool := false
  hasV1 : Bool := false
deriving DecidableEq, Repr

/-- One iteration of the element loop of `parseSignatureHeader`: trim the
element, split at the first `=`, skip it when there is no `=`, update
`t`/`v1` state (an unparseable `t` value aborts with INVALID_TIMESTAMP),
ignore unrecognized keys. -/
def processElement (st : ParseState) (element : String) :
    Except VerificationError ParseState :=
  match splitEq2 (trimSpace element) with
  | none => .ok st
  | some (key, value) =>
    if key = "t" then
      match parseInt64 value with
      | none => .error ⟨"Invalid timestamp in signature header", "INVALID_TIMESTAMP"⟩
      | some n => .ok { st with timestamp := n, hasT := true }
    else if key = "v1" then
      .ok { st with signature := value, hasV1 := true }
    else
      .ok st

/-- The element loop of `parseSignatureHeader` over the comma-split
elements. -/
def processElems : ParseState → List String → Except VerificationError ParseState
  | st, [] => .ok st
  | st, e :: rest =>
    match processElement st e with
    | .error err => .error err
    | .ok st' => processElems st' rest

/-- Split a character list at every occurrence of `sep`; always returns at
least one (possibly empty) group, like Go `strings.Split` with a
single-character separator. -/
def splitOnChar (sep : Char) : List Char → List (List Char)
  | [] => [[]]
  | c :: rest =>
    if c = sep then
      [] :: splitOnChar sep rest
    else
      match splitOnChar sep rest with
      | [] => [[c]]
      | g :: gs => (c :: g) :: gs

/-- The comma-split elements of a header (`strings.Split(header, ",")`). -/
def elementsOf (header : String) : List String :=
  (splitOnChar ',' header.toList).map String.mk

/-- `parseSignatureHeader`: empty header is MISSING_SIGNATURE_HEADER;
after the element loop, both `t` and `v1` must have been seen, else
INVALID_SIGNATURE_FORMAT. -/
def parseSignatureHeader (header : String) :
    Except VerificationError SignatureComponents :=
  if header = "" then
    .error ⟨"Signature header is required", "MISSING_SIGNATURE_HEADER"⟩
  else
    match processElems {} (elementsOf header) with
    | .error e => .error e
    | .ok st =>
      if st.hasT && st.hasV1 then
        .ok ⟨st.timestamp, st.signature⟩
      else
        .error ⟨"Invalid signature header format. Expected format: t=<timestamp>,v1=<signature>",
                "INVALID_SIGNATURE_FORMAT"⟩

/-- `isTimestampValid`: `currentTime-timestamp <= tolerance && timestamp <=
currentTime`, where the subtraction is Go `int64` subtraction.
`currentTime` (`time.Now().Unix()` in the source) is an explicit
parameter of the model. -/
def isTimestampValid (currentTime timestamp tolerance : Int) : Bool :=
  decide (int64Sub currentTime timestamp ≤ tolerance) && decide (timestamp ≤ currentTime)

/-- `constantTimeEqual`: hex-decode both strings; any decode failure means
`false`; otherwise `subtle.ConstantTimeCompare` returns 1 exactly when
the byte sequences are equal (same length, same content). -/
def constantTimeEqual (expected actual : String) : Bool :=
  match hexDecode expected, hexDecode actual with
  | some e, some a => decide (e = a)
  | _, _ => false

/-- `calculateSignature`: hex-encode the HMAC-SHA256 digest of
`"{timestamp}.{body}"`. The digest itself is abstracted as a function
`mac` of the timestamp and body (the spec places the HMAC primitive out
of scope); its hex encoding is modelled from the source. -/
def calculateSignature (mac : Int → String → List Nat) (timestamp : Int)
    (body : String) : String :=
  hexEncode (mac timestamp body)

/-- Effective tolerance of a `VerifySignature` call: 300 seconds when no
options are given; a provided tolerance (including 0) is respected. -/
def toleranceOf : Option VerificationOptions → Int
  | none => 300
  | some o => o.tolerance

/-- `VerifySignature`: default tolerance 300 when no options are given (a
provided tolerance of 0 is respected); parse the header, validate the
timestamp (else TIMESTAMP_TOO_OLD), recompute the expected signature and
compare in constant time (else INVALID_SIGNATURE). -/
def verifySignature (mac : Int → String → List Nat) (signature body : String)
    (options : Option VerificationOptions) (currentTime : Int) :
    Except VerificationError Unit :=
  let tolerance : Int := toleranceOf options
  match parseSignatureHeader signature with
  | .error e => .error e
  | .ok components =>
    if !isTimestampValid currentTime components.timestamp tolerance then
      .error ⟨"Request timestamp is too old. Maximum age: " ++ toString tolerance ++ " seconds",
              "TIMESTAMP_TOO_OLD"⟩
    else if !constantTimeEqual (calculateSignature mac components.timestamp body)
              components.signature then
      .error ⟨"Signature verification failed", "INVALID_SIGNATURE"⟩
    else
      .ok ()

/-- Code of the error of a verifier result, `none` on success. -/
def exceptCode {α : Type} : Except VerificationError α → Option String
  | .error e => some e.code
  | .ok _ => none

/-- Values of the elements of `es` whose key (after trimming and splitting
at the first `=`) equals `key`, in order. -/
def valsFor (key : String) (es : List String) : List String :=
  es.filterMap fun e =>
    match splitEq2 (trimSpace e) with
    | some (k, v) => if k = key then some v else none
    | none => none

/-! ## Subscription processing engine (`subscriber.go`)

The engine state is `SailhouseSubscriber`: the registration list, the
options, the `running` flag, the internal cancellation signal (the
`context.CancelFunc` having been invoked) and the number of live worker
goroutines (tracked in the source by the `sync.WaitGroup`). `Subscribe`,
`Start` and `Stop` are modelled as state transformers; a Go `panic` is
an `Except.error` carrying the panic message, and an error return of
`Start` is paired with the (unchanged) state. -/

/-- A registered `Subscription` triple. The handler function is an opaque
tag here; its behaviour only matters to the retry engine, which is
parameterised over it separately. -/
structure Subscription where
  topic : String
  subscription : String
  handler : Nat
deriving DecidableEq, Repr

/-- `SubscriberOptions` (durations are opaque tick counts). -/
structure SubscriberOptions where
  perSubscriptionProcessors : Nat
  pollInterval : Nat
  maxRetries : Nat
  retryDelay : Nat
deriving DecidableEq, Repr

/-- `SailhouseSubscriber` run state. -/
structure SailhouseSubscriber where
  subscriptions : List Subscription
  options : SubscriberOptions
  running : Bool
  cancelled : Bool
  activeWorkers : Nat
deriving DecidableEq, Repr

/-- `Subscribe`: panics (modelled as `.error` with the panic message) when
the subscriber is running, otherwise appends the registration. -/
def SailhouseSubscriber.subscribe (s : SailhouseSubscriber) (r : Subscription) :
    Except String SailhouseSubscriber :=
  if s.running then
    .error "cannot add subscriptions while subscriber is running"
  else
    .ok { s with subscriptions := s.subscriptions ++ [r] }

/-- `Start`: error (state unchanged) when already running or when no
subscriptions are registered; otherwise set `running`, reset the derived
cancellation signal, and spawn one worker goroutine per
(subscription, processor-slot) pair, i.e. `R * P` many. -/
def SailhouseSubscriber.start (s : SailhouseSubscriber) :
    SailhouseSubscriber × Option String :=
  if s.running then
    (s, some "subscriber is already running")
  else if s.subscriptions.isEmpty then
    (s, some "no subscriptions registered")
  else
    ({ s with
        running := true
        cancelled := false
        activeWorkers :=
          s.activeWorkers + s.subscriptions.length * s.options.perSubscriptionProcessors },
     none)

/-- `Stop`: no-op when not running; otherwise clear `running`, trigger the
cancellation signal and join: block until every worker has observed the
cancellation and exited (`wg.Wait()`), after which no workers remain. -/
def SailhouseSubscriber.stop (s : SailhouseSubscriber) : SailhouseSubscriber :=
  if !s.running then
    s
  else
    { s with running := false, cancelled := true, activeWorkers := 0 }

/-! ## `processEventWithRetries`: the bounded-retry delivery loop

The loop is modelled as a trace-producing function. One `RetryEnv` fixes
what the environment does on this one event: `handlerOk i` is whether
the user handler returns `nil` on attempt `i`, `ackOk` is whether
`event.Ack` succeeds (it is called at most once per event), and
`cancelled i` is whether `ctx.Done()` has fired when attempt `i` checks
it. The trace records handler invocations, calls into `handleError`
(which forwards to the configured error callback, or silently drops the
error when none is configured) and acknowledge calls; the interruptible
sleeps between attempts do not act on the event and are omitted from the
trace. -/

/-- Kinds of error reported to `handleError` inside
`processEventWithRetries`. -/
inductive ErrKind where
  /-- failed to acknowledge an event whose handler succeeded -/
  | ackFailed
  /-- terminal failure after the given number of attempts -/
  | terminalFailure (attempts : Nat)
  /-- failed to acknowledge an event whose handler permanently failed -/
  | ackFailedAfterFailure
deriving DecidableEq, Repr

/-- Observable actions of `processEventWithRetries` on one event. -/
inductive RetryEvent where
  | handlerCall (attempt : Nat)
  | errorReported (kind : ErrKind)
  | ackCall
deriving DecidableEq, Repr

/-- Environment of one `processEventWithRetries` run. -/
structure RetryEnv where
  maxRetries : Nat
  handlerOk : Nat → Bool
  ackOk : Bool
  cancelled : Nat → Bool

/-- The `for attempt := 0; attempt <= maxRetries; attempt++` loop of
`processEventWithRetries`, from a given attempt on: check cancellation;
invoke the handler; on success acknowledge (reporting an acknowledge
failure) and return; on failure at the final attempt report the terminal
failure (with attempt count `maxRetries+1`), still acknowledge
(reporting an acknowledge failure separately) and return; otherwise
sleep and move to the next attempt. -/
def processFrom (env : RetryEnv) (attempt : Nat) : List RetryEvent :=
  if _hle : attempt ≤ env.maxRetries then
    if env.cancelled attempt then
      []
    else if env.handlerOk attempt then
      [.handlerCall attempt, .ackCall] ++
        (if env.ackOk then [] else [.errorReported .ackFailed])
    else if _heq : attempt = env.maxRetries then
      [.handlerCall attempt,
       .errorReported (.terminalFailure (env.maxRetries + 1)), .ackCall] ++
        (if env.ackOk then [] else [.errorReported .ackFailedAfterFailure])
    else
      .handlerCall attempt :: processFrom env (attempt + 1)
  else
    []
termination_by env.maxRetries + 1 - attempt
decreasing_by omega

/-- `processEventWithRetries`: the loop started at attempt 0. -/
def processEventWithRetries (env : RetryEnv) : List RetryEvent :=
  processFrom env 0

/-- Is a trace entry a handler invocation. -/
def isHandlerCall : RetryEvent → Bool
  | .handlerCall _ => true
  | _ => false

/-- Is a trace entry an acknowledge call. -/
def isAck : RetryEvent → Bool
  | .ackCall => true
  | _ => false

/-- Is a trace entry a terminal-failure report. -/
def isTerminalReport : RetryEvent → Bool
  | .errorReported (.terminalFailure _) => true
  | _ => false

/-- Is a trace entry a report of an acknowledge failure after handler
success. -/
def isAckFailReport : RetryEvent → Bool
  | .errorReported .ackFailed => true
  | _ => false

/-! ## `PullEvent` (`client.go`)

`PullEvent` is modelled as a function of the HTTP response status and of
the outcome of JSON-decoding the response body, the two inputs that
determine its result once the request itself has succeeded. -/

/-- `PullEvent` outcome logic: status 204 is the distinct no-event,
no-error outcome; any other non-200 status is an error whose message
carries the status code; on 200 the decoded event (or the decode error)
is returned. -/
def pullEvent {E : Type} (status : Nat) (decoded : Except String E) :
    Except String (Option E) :=
  if status = 204 then
    .ok none
  else if status ≠ 200 then
    .error ("failed to get events: " ++ toString status)
  else
    match decoded with
    | .ok e => .ok (some e)
    | .error msg => .error msg

/-! ## Theorems: engine lifecycle and pull endpoint -/

/-- Claim C6: `Start` returns an error without spawning any worker (and
without any state change) when the subscriber is already running or when
zero registrations exist, the zero-registration error being "no
subscriptions registered"; otherwise it sets the state to running and
spawns exactly `R * P` workers, `R` the number of registrations and `P`
the configured pollers-per-registration. -/
theorem start_spec (s : SailhouseSubscriber) :
    (s.running = true → s.start = (s, some "subscriber is already running")) ∧
    (s.running = false → s.subscriptions = [] →
      s.start = (s, some "no subscriptions registered")) ∧
    (s.running = false → s.subscriptions ≠ [] →
      s.start.2 = none ∧ s.start.1.running = true ∧
      s.start.1.activeWorkers =
        s.activeWorkers + s.subscriptions.length * s.options.perSubscriptionProcessors) := by
  refine ⟨fun h => ?_, fun h hempty => ?_, fun h hne => ?_⟩ <;>
    simp [SailhouseSubscriber.start, h, *, List.isEmpty_iff]

/-- Witness for `start_spec` at concrete states. -/
theorem start_spec_witness :
    SailhouseSubscriber.start ⟨[⟨"a", "b", 0⟩], ⟨2, 1, 3, 1⟩, true, false, 6⟩ =
      (⟨[⟨"a", "b", 0⟩], ⟨2, 1, 3, 1⟩, true, false, 6⟩, some "subscriber is already running") ∧
    SailhouseSubscriber.start ⟨[], ⟨2, 1, 3, 1⟩, false, false, 0⟩ =
      (⟨[], ⟨2, 1, 3, 1⟩, false, false, 0⟩, some "no subscriptions registered") ∧
    (SailhouseSubscriber.start ⟨[⟨"a", "b", 0⟩, ⟨"c", "d", 1⟩], ⟨3, 1, 3, 1⟩, false, false, 0⟩).2 =
      none ∧
    (SailhouseSubscriber.start ⟨[⟨"a", "b", 0⟩, ⟨"c", "d", 1⟩], ⟨3, 1, 3, 1⟩, false, false, 0⟩).1.activeWorkers =
      6 :=
  ⟨(start_spec _).1 rfl, (start_spec _).2.1 rfl rfl,
   ((start_spec ⟨[⟨"a", "b", 0⟩, ⟨"c", "d", 1⟩], ⟨3, 1, 3, 1⟩, false, false, 0⟩).2.2 rfl
      (by decide)).1,
   ((start_spec ⟨[⟨"a", "b", 0⟩, ⟨"c", "d", 1⟩], ⟨3, 1, 3, 1⟩, false, false, 0⟩).2.2 rfl
      (by decide)).2.2⟩

/-- Claim C7: `Stop` is idempotent: when the subscriber is not running
(including before any `Start`, and on a second consecutive call) it
changes nothing (`Stop` has no error to return and performs no join);
when running it clears the running flag, triggers the cancellation
signal, and joins until no spawned worker remains. -/
theorem stop_spec (s : SailhouseSubscriber) :
    (s.running = false → s.stop = s) ∧
    (s.running = true →
      s.stop.running = false ∧ s.stop.cancelled = true ∧ s.stop.activeWorkers = 0) ∧
    s.stop.stop = s.stop := by
  refine ⟨fun h => ?_, fun h => ?_, ?_⟩
  · simp [SailhouseSubscriber.stop, h]
  · simp [SailhouseSubscriber.stop, h]
  · by_cases h : s.running <;> simp [SailhouseSubscriber.stop, h]

/-- Witness for `stop_spec` at concrete states: a never-started subscriber
is unchanged, a running one is cancelled and joined. -/
theorem stop_spec_witness :
    SailhouseSubscriber.stop ⟨[⟨"a", "b", 0⟩], ⟨1, 1, 3, 1⟩, false, false, 0⟩ =
      ⟨[⟨"a", "b", 0⟩], ⟨1, 1, 3, 1⟩, false, false, 0⟩ ∧
    (SailhouseSubscriber.stop ⟨[⟨"a", "b", 0⟩], ⟨1, 1, 3, 1⟩, true, false, 4⟩).running = false ∧
    (SailhouseSubscriber.stop ⟨[⟨"a", "b", 0⟩], ⟨1, 1, 3, 1⟩, true, false, 4⟩).cancelled = true ∧
    (SailhouseSubscriber.stop ⟨[⟨"a", "b", 0⟩, ⟨"c", "d", 1⟩], ⟨1, 1, 3, 1⟩, true, false, 4⟩).activeWorkers = 0 :=
  ⟨(stop_spec _).1 rfl, ((stop_spec _).2.1 rfl).1, ((stop_spec _).2.1 rfl).2.1,
   ((stop_spec _).2.1 rfl).2.2⟩

/-- Claim C8: `Subscribe` on a running subscriber panics (the panic being
modelled as the `.error` outcome, which carries the panic message and
leaves the registration list unchanged); on a non-running subscriber it
appends the registration and never panics. -/
theorem subscribe_spec (s : SailhouseSubscriber) (r : Subscription) :
    (s.running = true →
      s.subscribe r = .error "cannot add subscriptions while subscriber is running") ∧
    (s.running = false →
      s.subscribe r = .ok { s with subscriptions := s.subscriptions ++ [r] }) := by
  refine ⟨fun h => ?_, fun h => ?_⟩ <;> simp [SailhouseSubscriber.subscribe, h]

/-- Witness for `subscribe_spec` at concrete states. -/
theorem subscribe_spec_witness :
    SailhouseSubscriber.subscribe ⟨[], ⟨1, 1, 3, 1⟩, true, false, 1⟩ ⟨"a", "b", 0⟩ =
      .error "cannot add subscriptions while subscriber is running" ∧
    SailhouseSubscriber.subscribe ⟨[⟨"a", "b", 0⟩], ⟨1, 1, 3, 1⟩, false, false, 0⟩ ⟨"c", "d", 1⟩ =
      .ok ⟨[⟨"a", "b", 0⟩, ⟨"c", "d", 1⟩], ⟨1, 1, 3, 1⟩, false, false, 0⟩ :=
  ⟨(subscribe_spec _ _).1 rfl, (subscribe_spec _ _).2 rfl⟩

/-- Claim C9: `PullEvent` returns the no-event, no-error outcome on status
204; on every other non-200 status it returns an error whose message
carries that status code; and only on status 200 does it return a
decoded event. -/
theorem pullEvent_spec {E : Type} (status : Nat) (decoded : Except String E) :
    (status = 204 → pullEvent status decoded = .ok none) ∧
    (status ≠ 204 → status ≠ 200 →
      pullEvent status decoded = .error ("failed to get events: " ++ toString status)) ∧
    (∀ e : E, pullEvent status decoded = .ok (some e) → status = 200 ∧ decoded = .ok e) := by
  refine ⟨fun h => ?_, fun h204 h200 => ?_, fun e h => ?_⟩
  · simp [pullEvent, h]
  · simp [pullEvent, h204, h200]
  · by_cases h204 : status = 204
    · simp [pullEvent, h204] at h
    · by_cases h200 : status = 200
      · subst h200
        simp [pullEvent] at h
        cases hd : decoded with
        | ok e' => rw [hd] at h; simp at h; simp [hd, h]
        | error m => rw [hd] at h; simp at h
      · simp [pullEvent, h204, h200] at h

/-- Witness for `pullEvent_spec` at concrete statuses. -/
theorem pullEvent_spec_witness :
    pullEvent 204 (Except.ok (7 : Nat)) = .ok none ∧
    pullEvent 500 (Except.ok (7 : Nat)) = .error "failed to get events: 500" ∧
    ((500 : Nat) ≠ 204 ∧ (500 : Nat) ≠ 200) :=
  ⟨(pullEvent_spec 204 (Except.ok 7)).1 rfl,
   (pullEvent_spec 500 (Except.ok 7)).2.1 (by decide) (by decide),
   by decide, by decide⟩

/-! ## Theorems: the bounded-retry delivery loop -/

/-- Trace of the retry loop from any attempt when the handler fails on
every attempt and cancellation never fires: the remaining handler
invocations, then the terminal-failure report, the acknowledge call, and
the acknowledge-failure report when the acknowledge fails. -/
theorem processFrom_allFail (env : RetryEnv) (hfail : ∀ i, env.handlerOk i = false)
    (hcancel : ∀ i, env.cancelled i = false) :
    ∀ d a, env.maxRetries = a + d →
      processFrom env a =
        (List.range' a (d + 1)).map RetryEvent.handlerCall ++
        ([.errorReported (.terminalFailure (env.maxRetries + 1)), .ackCall] ++
          (if env.ackOk then [] else [.errorReported .ackFailedAfterFailure])) := by
  intro d
  induction d with
  | zero =>
    intro a ha
    have h2 : a = env.maxRetries := by omega
    subst h2
    rw [processFrom.eq_def]
    simp [hcancel, hfail, List.range'_one]
  | succ d ih =>
    intro a ha
    rw [processFrom.eq_def]
    have h1 : a ≤ env.maxRetries := by omega
    have h2 : ¬(a = env.maxRetries) := by omega
    simp only [h1, dif_pos, hcancel a, hfail a, h2, dif_neg, Bool.false_eq_true,
      if_false, if_neg, not_false_eq_true]
    rw [ih (a + 1) (by omega)]
    simp [List.range'_succ]

/-- Claim C1: for `MaxRetries = N` and a handler that fails on every
attempt, with cancellation never signalled, one `processEventWithRetries`
run invokes the handler exactly `N + 1` times, reports the terminal
failure exactly once, and still acknowledges the event (exactly one
acknowledge call), whether or not that acknowledge succeeds. -/
theorem retry_bound_all_fail (env : RetryEnv) (hfail : ∀ i, env.handlerOk i = false)
    (hcancel : ∀ i, env.cancelled i = false) :
    (processEventWithRetries env).countP isHandlerCall = env.maxRetries + 1 ∧
    (processEventWithRetries env).countP isTerminalReport = 1 ∧
    (processEventWithRetries env).countP isAck = 1 := by
  have h := processFrom_allFail env hfail hcancel env.maxRetries 0 (by omega)
  unfold processEventWithRetries
  rw [h]
  cases hack : env.ackOk <;>
    simp [List.countP_append, List.countP_map, isHandlerCall, isTerminalReport, isAck,
      Function.comp_def, List.countP_cons, List.countP_eq_length]

/-- Witness for `retry_bound_all_fail`: `MaxRetries = 2`, an always-failing
handler, a succeeding acknowledge. -/
theorem retry_bound_all_fail_witness :
    (processEventWithRetries ⟨2, fun _ => false, true, fun _ => false⟩).countP isHandlerCall = 3 ∧
    (processEventWithRetries ⟨2, fun _ => false, true, fun _ => false⟩).countP isTerminalReport = 1 ∧
    (processEventWithRetries ⟨2, fun _ => false, true, fun _ => false⟩).countP isAck = 1 :=
  retry_bound_all_fail ⟨2, fun _ => false, true, fun _ => false⟩ (fun _ => rfl) (fun _ => rfl)

/-- Trace of the retry loop from any attempt up to the first succeeding
attempt `k`, with cancellation never fired: the failed invocations, the
succeeding invocation, one acknowledge call, and an acknowledge-failure
report exactly when the acknowledge fails. -/
theorem processFrom_firstSuccess (env : RetryEnv) (k : Nat) (hk : k ≤ env.maxRetries)
    (hbefore : ∀ j, j < k → env.handlerOk j = false) (hsucc : env.handlerOk k = true)
    (hcancel : ∀ i, env.cancelled i = false) :
    ∀ d a, k = a + d →
      processFrom env a =
        (List.range' a d).map RetryEvent.handlerCall ++
        ([.handlerCall k, .ackCall] ++
          (if env.ackOk then [] else [.errorReported .ackFailed])) := by
  intro d
  induction d with
  | zero =>
    intro a ha
    have h2 : a = k := by omega
    subst h2
    rw [processFrom.eq_def]
    have h1 : a ≤ env.maxRetries := by omega
    simp [h1, hcancel, hsucc]
  | succ d ih =>
    intro a ha
    rw [processFrom.eq_def]
    have h1 : a ≤ env.maxRetries := by omega
    have h2 : ¬(a = env.maxRetries) := by omega
    have h3 : env.handlerOk a = false := hbefore a (by omega)
    simp only [h1, dif_pos, hcancel a, h3, h2, dif_neg, Bool.false_eq_true,
      if_false, if_neg, not_false_eq_true]
    rw [ih (a + 1) (by omega)]
    simp [List.range'_succ]

/-- Claim C2: when the handler first succeeds on attempt `k` (within the
retry bound, cancellation never signalled), `processEventWithRetries`
acknowledges the event exactly once and returns: the handler is invoked
exactly `k + 1` times (never re-invoked after the success), no terminal
failure is reported, and an acknowledge failure is reported to the error
callback exactly when the acknowledge fails — without any further
retry. -/
theorem success_ack_once (env : RetryEnv) (k : Nat) (hk : k ≤ env.maxRetries)
    (hbefore : ∀ j, j < k → env.handlerOk j = false) (hsucc : env.handlerOk k = true)
    (hcancel : ∀ i, env.cancelled i = false) :
    (processEventWithRetries env).countP isAck = 1 ∧
    (processEventWithRetries env).countP isHandlerCall = k + 1 ∧
    (processEventWithRetries env).countP isTerminalReport = 0 ∧
    (processEventWithRetries env).countP isAckFailReport = (if env.ackOk then 0 else 1) := by
  have h := processFrom_firstSuccess env k hk hbefore hsucc hcancel k 0 (by omega)
  unfold processEventWithRetries
  rw [h]
  cases hack : env.ackOk <;>
    simp [List.countP_append, List.countP_map, isHandlerCall, isTerminalReport, isAck,
      isAckFailReport, Function.comp_def, List.countP_cons, List.countP_eq_length]

/-- Witness for `success_ack_once`: the handler fails on attempt 0 and
succeeds on attempt 1, and the acknowledge call fails: one acknowledge,
two handler invocations, no terminal report, one acknowledge-failure
report. -/
theorem success_ack_once_witness :
    (processEventWithRetries ⟨3, fun i => decide (0 < i), false, fun _ => false⟩).countP isAck = 1 ∧
    (processEventWithRetries ⟨3, fun i => decide (0 < i), false, fun _ => false⟩).countP isHandlerCall = 2 ∧
    (processEventWithRetries ⟨3, fun i => decide (0 < i), false, fun _ => false⟩).countP isTerminalReport = 0 ∧
    (processEventWithRetries ⟨3, fun i => decide (0 < i), false, fun _ => false⟩).countP isAckFailReport = 1 :=
  success_ack_once ⟨3, fun i => decide (0 < i), false, fun _ => false⟩ 1 (by decide)
    (fun j hj => by have hj0 : j = 0 := Nat.lt_one_iff.mp hj; subst hj0; rfl) rfl (fun _ => rfl)

/-! ## Theorems: signature-header parsing -/

/-- Equation of `processElement` when the element has no `=`. -/

theorem processElement_skip (st : ParseState) (e : String)
    (h : splitEq2 (trimSpace e) = none) : processElement st e = .ok st := by
  unfold processElement
  rw [h]

/-- Equation of `processElement` for a `t` element with a parseable value. -/
theorem processElement_t (st : ParseState) (e v : String) (n : Int)
    (h : splitEq2 (trimSpace e) = some ("t", v)) (hp : parseInt64 v = some n) :
    processElement st e = .ok { st with timestamp := n, hasT := true } := by
  unfold processElement
  rw [h]
  simp [hp]

/-- Equation of `processElement` for a `t` element with an unparseable
value: the loop aborts with INVALID_TIMESTAMP. -/
theorem processElement_tbad (st : ParseState) (e v : String)
    (h : splitEq2 (trimSpace e) = some ("t", v)) (hp : parseInt64 v = none) :
    processElement st e =
      .error ⟨"Invalid timestamp in signature header", "INVALID_TIMESTAMP"⟩ := by
  unfold processElement
  rw [h]
  simp [hp]

/-- Equation of `processElement` for a `v1` element. -/
theorem processElement_v1 (st : ParseState) (e v : String)
    (h : splitEq2 (trimSpace e) = some ("v1", v)) :
    processElement st e = .ok { st with signature := v, hasV1 := true } := by
  unfold processElement
  rw [h]
  simp

/-- Equation of `processElement` for an unrecognized key: ignored. -/
theorem processElement_other (st : ParseState) (e k v : String)
    (h : splitEq2 (trimSpace e) = some (k, v)) (hk : k ≠ "t") (hv : k ≠ "v1") :
    processElement st e = .ok st := by
  unfold processElement
  rw [h]
  simp [hk, hv]

/-- Characterization of the element loop when every `t` value parses: no
error, the last `t` and `v1` values win (via `List.foldl`), and the
`hasT`/`hasV1` flags record whether any such element occurred. -/
theorem processElems_char (es : List String) (st : ParseState)
    (hall : ∀ v ∈ valsFor "t" es, (parseInt64 v).isSome) :
    processElems st es = .ok
      { timestamp := (valsFor "t" es).foldl (fun acc v => (parseInt64 v).getD acc) st.timestamp
        signature := (valsFor "v1" es).foldl (fun _ v => v) st.signature
        hasT := st.hasT || !(valsFor "t" es).isEmpty
        hasV1 := st.hasV1 || !(valsFor "v1" es).isEmpty } := by
  induction es generalizing st with
  | nil => simp [processElems, valsFor]
  | cons e rest ih =>
    unfold processElems
    cases hsp : splitEq2 (trimSpace e) with
    | none =>
      have hvt : valsFor "t" (e :: rest) = valsFor "t" rest := by simp [valsFor, hsp]
      have hv1 : valsFor "v1" (e :: rest) = valsFor "v1" rest := by simp [valsFor, hsp]
      rw [hvt] at hall ⊢
      rw [hv1, processElement_skip st e hsp]
      dsimp only
      exact ih st hall
    | some kv =>
      obtain ⟨k, v⟩ := kv
      by_cases hk : k = "t"
      · subst hk
        have hvt : valsFor "t" (e :: rest) = v :: valsFor "t" rest := by simp [valsFor, hsp]
        have hv1 : valsFor "v1" (e :: rest) = valsFor "v1" rest := by simp [valsFor, hsp]
        rw [hvt] at hall ⊢
        rw [hv1]
        obtain ⟨n, hn⟩ := Option.isSome_iff_exists.mp (hall v (by simp))
        rw [processElement_t st e v n hsp hn]
        dsimp only
        rw [ih _ (fun w hw => hall w (by simp [hw]))]
        simp [hn]
      · by_cases hv : k = "v1"
        · subst hv
          have hvt : valsFor "t" (e :: rest) = valsFor "t" rest := by simp [valsFor, hsp, hk]
          have hv1 : valsFor "v1" (e :: rest) = v :: valsFor "v1" rest := by simp [valsFor, hsp]
          rw [hvt] at hall ⊢
          rw [hv1, processElement_v1 st e v hsp]
          dsimp only
          rw [ih _ hall]
          simp
        · have hvt : valsFor "t" (e :: rest) = valsFor "t" rest := by simp [valsFor, hsp, hk]
          have hv1 : valsFor "v1" (e :: rest) = valsFor "v1" rest := by simp [valsFor, hsp, hv]
          rw [hvt] at hall ⊢
          rw [hv1, processElement_other st e k v hsp hk hv]
          dsimp only
          exact ih st hall

/-- The element loop fails with INVALID_TIMESTAMP whenever some `t`
element has an unparseable value. -/
theorem processElems_badT (es : List String) (st : ParseState)
    (hbad : ∃ v ∈ valsFor "t" es, parseInt64 v = none) :
    processElems st es =
      .error ⟨"Invalid timestamp in signature header", "INVALID_TIMESTAMP"⟩ := by
  induction es generalizing st with
  | nil => simp [valsFor] at hbad
  | cons e rest ih =>
    unfold processElems
    cases hsp : splitEq2 (trimSpace e) with
    | none =>
      have hvt : valsFor "t" (e :: rest) = valsFor "t" rest := by simp [valsFor, hsp]
      rw [hvt] at hbad
      rw [processElement_skip st e hsp]
      dsimp only
      exact ih st hbad
    | some kv =>
      obtain ⟨k, v⟩ := kv
      by_cases hk : k = "t"
      · subst hk
        have hvt : valsFor "t" (e :: rest) = v :: valsFor "t" rest := by simp [valsFor, hsp]
        rw [hvt] at hbad
        cases hp : parseInt64 v with
        | none => rw [processElement_tbad st e v hsp hp]
        | some n =>
          rw [processElement_t st e v n hsp hp]
          dsimp only
          refine ih _ ?_
          obtain ⟨w, hw, hwnone⟩ := hbad
          rcases List.mem_cons.mp hw with hwv | hwrest
          · subst hwv; rw [hp] at hwnone; cases hwnone
          · exact ⟨w, hwrest, hwnone⟩
      · by_cases hv : k = "v1"
        · subst hv
          have hvt : valsFor "t" (e :: rest) = valsFor "t" rest := by simp [valsFor, hsp, hk]
          rw [hvt] at hbad
          rw [processElement_v1 st e v hsp]
          dsimp only
          exact ih _ hbad
        · have hvt : valsFor "t" (e :: rest) = valsFor "t" rest := by simp [valsFor, hsp, hk]
          rw [hvt] at hbad
          rw [processElement_other st e k v hsp hk hv]
          dsimp only
          exact ih st hbad

/-- Claim C4: verification on an empty header fails with
MISSING_SIGNATURE_HEADER; on a non-empty header lacking a `t` element or
lacking a `v1` element it fails with INVALID_SIGNATURE_FORMAT (provided
no present `t` element has a non-integer value, since by the spec
INVALID_TIMESTAMP applies "specifically" in that case and takes
precedence); and on a header some `t` element of which has a non-integer
value it fails with INVALID_TIMESTAMP. -/
theorem header_error_codes :
    exceptCode (parseSignatureHeader "") = some "MISSING_SIGNATURE_HEADER" ∧
    (∀ header, header ≠ "" →
      (valsFor "t" (elementsOf header) = [] ∨ valsFor "v1" (elementsOf header) = []) →
      (∀ v ∈ valsFor "t" (elementsOf header), (parseInt64 v).isSome) →
      exceptCode (parseSignatureHeader header) = some "INVALID_SIGNATURE_FORMAT") ∧
    (∀ header, header ≠ "" →
      (∃ v ∈ valsFor "t" (elementsOf header), parseInt64 v = none) →
      exceptCode (parseSignatureHeader header) = some "INVALID_TIMESTAMP") := by
  refine ⟨rfl, fun header hne hmiss hall => ?_, fun header hne hbad => ?_⟩
  · unfold parseSignatureHeader
    rw [if_neg hne, processElems_char (elementsOf header) {} hall]
    rcases hmiss with h | h <;> simp [h, exceptCode]
  · unfold parseSignatureHeader
    rw [if_neg hne, processElems_badT (elementsOf header) {} hbad]
    rfl

/-- Witness for `header_error_codes` at concrete headers. -/
theorem header_error_codes_witness :
    exceptCode (parseSignatureHeader "") = some "MISSING_SIGNATURE_HEADER" ∧
    exceptCode (parseSignatureHeader "v1=abc") = some "INVALID_SIGNATURE_FORMAT" ∧
    exceptCode (parseSignatureHeader "t=5") = some "INVALID_SIGNATURE_FORMAT" ∧
    exceptCode (parseSignatureHeader "t=xx,v1=abc") = some "INVALID_TIMESTAMP" :=
  ⟨header_error_codes.1,
   header_error_codes.2.1 "v1=abc" (by decide) (Or.inl (by decide)) (by decide),
   header_error_codes.2.1 "t=5" (by decide) (Or.inr (by decide)) (by decide),
   header_error_codes.2.2 "t=xx,v1=abc" (by decide) (by decide)⟩

/-- Counterexample to claim C5: the header `t=1,t=2,v1=abc` contains two
`t` elements, yet parsing succeeds with the single pair `(2, "abc")` —
duplicates are not rejected, the last occurrence wins. -/
theorem dup_elements_accepted :
    (valsFor "t" (elementsOf "t=1,t=2,v1=abc")).length = 2 ∧
    parseSignatureHeader "t=1,t=2,v1=abc" = .ok ⟨2, "abc"⟩ :=
  ⟨by decide, rfl⟩

/-- A fold that keeps the newest value returns the last element (or the
initial value for an empty list). -/
theorem foldl_keep_last {α : Type} (l : List α) (i : α) :
    l.foldl (fun _ v => v) i = l.getLast?.getD i := by
  induction l generalizing i with
  | nil => rfl
  | cons a l ih =>
    cases l with
    | nil => rfl
    | cons b l' =>
      rw [List.foldl_cons, ih, List.getLast?_cons_cons]
      cases hg : (b :: l').getLast? with
      | none => simp at hg
      | some x => simp [hg]

/-- The timestamp fold returns the parse of the last value when every
step parses the list's last value successfully. -/
theorem foldl_parse_last (l : List String) (i : Int) (tv : String) (n : Int)
    (hlast : l.getLast? = some tv) (hp : parseInt64 tv = some n) :
    l.foldl (fun acc v => (parseInt64 v).getD acc) i = n := by
  induction l generalizing i with
  | nil => simp at hlast
  | cons a l ih =>
    cases l with
    | nil =>
      simp at hlast
      subst hlast
      simp [hp]
    | cons b l' =>
      rw [List.getLast?_cons_cons] at hlast
      rw [List.foldl_cons]
      exact ih _ hlast

/-- Amended claim C5: parsing succeeds whenever at least one `t` element
(every `t` value being a valid integer) and at least one `v1` element
are present — duplicates allowed — and it returns the value of the last
`t` element and the last `v1` element. -/
theorem last_wins (header : String) (tv sv : String) (n : Int)
    (hne : header ≠ "")
    (hall : ∀ v ∈ valsFor "t" (elementsOf header), (parseInt64 v).isSome)
    (hlastT : (valsFor "t" (elementsOf header)).getLast? = some tv)
    (hpn : parseInt64 tv = some n)
    (hlastV : (valsFor "v1" (elementsOf header)).getLast? = some sv) :
    parseSignatureHeader header = .ok ⟨n, sv⟩ := by
  unfold parseSignatureHeader
  rw [if_neg hne, processElems_char (elementsOf header) {} hall]
  have hTne : (valsFor "t" (elementsOf header)) ≠ [] := by
    intro h; rw [h] at hlastT; simp at hlastT
  have hVne : (valsFor "v1" (elementsOf header)) ≠ [] := by
    intro h; rw [h] at hlastV; simp at hlastV
  have h1 := foldl_parse_last (valsFor "t" (elementsOf header)) 0 tv n hlastT hpn
  have h2 := foldl_keep_last (valsFor "v1" (elementsOf header)) ""
  rw [hlastV] at h2
  simp only [Option.getD_some] at h2
  dsimp only
  simp [List.isEmpty_iff, hTne, hVne, h1, h2]

/-- Witness for `last_wins`: duplicated `t` and `v1` elements, the last
of each winning. -/
theorem last_wins_witness :
    parseSignatureHeader "t=7,t=8,v1=x,v1=y" = .ok ⟨8, "y"⟩ :=
  last_wins "t=7,t=8,v1=x,v1=y" "8" "y" 8 (by decide) (by decide) (by decide) (by decide)
    (by decide)

/-! ## Theorems: timestamp freshness and signature comparison -/

/-- Wraparound is the identity inside the `int64` range. -/

theorem wrap64_eq_self (x : Int) (h1 : -(2 ^ 63) ≤ x) (h2 : x < 2 ^ 63) : wrap64 x = x := by
  unfold wrap64
  omega

/-- Counterexample to claim C3: at current time 1700000000 with the
default tolerance (300), the header timestamp `-9223372036854775808`
(the minimum `int64`, which `strconv.ParseInt` accepts) satisfies
`currentTime - t > tolerance` over the integers, so the claim requires a
TIMESTAMP_TOO_OLD failure — but verification succeeds, because the Go
subtraction `currentTime - timestamp` wraps around to a negative
value. -/
theorem verify_too_old_counterexample :
    verifySignature (fun _ _ => []) "t=-9223372036854775808,v1=" "" none 1700000000 =
      .ok () ∧
    (1700000000 : Int) - (-9223372036854775808) > 300 :=
  ⟨rfl, by decide⟩

/-- Amended claim C3: for a header parsing to timestamp `t`, verification
fails with TIMESTAMP_TOO_OLD exactly when the Go `int64` difference
`currentTime - t` (i.e. with 64-bit wraparound) exceeds the tolerance or
`t` is in the future; the default tolerance with no options is 300; and,
for timestamps within `2^63` of the current time (where the subtraction
cannot wrap), tolerance 0 accepts exactly `t` equal to the current
time. -/
theorem timestamp_check (mac : Int → String → List Nat) (header body : String)
    (opts : Option VerificationOptions) (currentTime t : Int) (sig : String)
    (hparse : parseSignatureHeader header = .ok ⟨t, sig⟩) :
    (exceptCode (verifySignature mac header body opts currentTime) = some "TIMESTAMP_TOO_OLD" ↔
      toleranceOf opts < int64Sub currentTime t ∨ currentTime < t) ∧
    toleranceOf none = 300 ∧
    ((currentTime - t).natAbs < 2 ^ 63 →
      (exceptCode (verifySignature mac header body (some ⟨0⟩) currentTime) ≠
          some "TIMESTAMP_TOO_OLD" ↔ t = currentTime)) := by
  have main : ∀ o : Option VerificationOptions,
      (exceptCode (verifySignature mac header body o currentTime) = some "TIMESTAMP_TOO_OLD" ↔
        toleranceOf o < int64Sub currentTime t ∨ currentTime < t) := by
    intro o
    unfold verifySignature
    rw [hparse]
    dsimp only
    cases h : isTimestampValid currentTime t (toleranceOf o) with
    | false =>
      simp only [Bool.not_false, if_pos]
      unfold isTimestampValid at h
      simp only [Bool.and_eq_false_iff, decide_eq_false_iff_not, not_le] at h
      constructor
      · intro _
        rcases h with h | h
        · exact Or.inl h
        · exact Or.inr h
      · intro _
        rfl
    | true =>
      simp only [Bool.not_true, Bool.false_eq_true, if_false]
      unfold isTimestampValid at h
      simp only [Bool.and_eq_true, decide_eq_true_eq] at h
      constructor
      · intro habs
        by_cases hc : constantTimeEqual (calculateSignature mac t body) sig
        · simp [hc, exceptCode] at habs
        · simp [hc, exceptCode] at habs
      · intro habs
        rcases habs with habs | habs
        · omega
        · omega
  refine ⟨main opts, rfl, fun hrange => ?_⟩
  rw [ne_eq, main (some ⟨0⟩)]
  have hw : int64Sub currentTime t = currentTime - t := by
    apply wrap64_eq_self <;> omega
  rw [hw]
  show ¬((0 : Int) < currentTime - t ∨ currentTime < t) ↔ t = currentTime
  constructor
  · intro h
    omega
  · intro h
    omega

/-- Witness for `timestamp_check`: a 400-second-old timestamp fails with
the default tolerance; an exactly-current timestamp passes the freshness
check at tolerance 0. -/
theorem timestamp_check_witness :
    exceptCode (verifySignature (fun _ _ => []) "t=100,v1=" "" none 500) =
      some "TIMESTAMP_TOO_OLD" ∧
    exceptCode (verifySignature (fun _ _ => []) "t=100,v1=" "" (some ⟨0⟩) 100) ≠
      some "TIMESTAMP_TOO_OLD" :=
  ⟨((timestamp_check (fun _ _ => []) "t=100,v1=" "" none 500 100 "" rfl).1).mpr
      (Or.inl (by decide)),
   ((timestamp_check (fun _ _ => []) "t=100,v1=" "" (some ⟨0⟩) 100 100 "" rfl).2.2
      (by decide)).mpr rfl⟩

/-- Decoding a produced hex digit gives back its value. -/
theorem hexDigitVal_hexDigitChar : ∀ n, n < 16 → hexDigitVal (hexDigitChar n) = some n := by
  decide

/-- Hex-decoding a hex-encoded byte list gives back the bytes. -/
theorem hexDecode_hexEncode (bs : List Nat) (h : ∀ b ∈ bs, b < 256) :
    hexDecode (hexEncode bs) = some bs := by
  show hexDecodeChars (hexEncodeChars bs) = some bs
  induction bs with
  | nil => rfl
  | cons b rest ih =>
    have hb : b < 256 := h b (by simp)
    have hhi : b / 16 < 16 := by omega
    have hlo : b % 16 < 16 := by omega
    rw [hexEncodeChars]
    show hexDecodeChars (_ :: _ :: hexEncodeChars rest) = _
    rw [hexDecodeChars]
    rw [hexDigitVal_hexDigitChar _ hhi, hexDigitVal_hexDigitChar _ hlo,
      ih (fun x hx => h x (by simp [hx]))]
    dsimp only
    have hbb : b / 16 * 16 + b % 16 = b := by omega
    rw [hbb]

/-- Claim C10: with a parsed header and a valid timestamp, verification
succeeds whenever the `v1` value hex-decodes to the HMAC digest bytes —
in particular for every mixed-case hex spelling of the digest, since
both the expected and the provided signature are hex-decoded to bytes
before the constant-time comparison — and a `v1` value that is not
decodable as hex fails with INVALID_SIGNATURE. -/
theorem hex_case_insensitive (mac : Int → String → List Nat) (header body : String)
    (opts : Option VerificationOptions) (currentTime t : Int) (sig : String)
    (hparse : parseSignatureHeader header = .ok ⟨t, sig⟩)
    (hts : isTimestampValid currentTime t (toleranceOf opts) = true)
    (hdig : ∀ b ∈ mac t body, b < 256) :
    (hexDecode sig = some (mac t body) →
      verifySignature mac header body opts currentTime = .ok ()) ∧
    (hexDecode sig = none →
      exceptCode (verifySignature mac header body opts currentTime) =
        some "INVALID_SIGNATURE") := by
  constructor <;> intro hsig <;>
    · unfold verifySignature
      rw [hparse]
      dsimp only
      rw [hts]
      simp only [Bool.not_true, Bool.false_eq_true, if_false]
      unfold constantTimeEqual calculateSignature
      rw [hexDecode_hexEncode (mac t body) hdig, hsig]
      simp [exceptCode]

/-- Witness for `hex_case_insensitive`: digest byte `0xab`, accepted with
the upper-case spelling `AB` of the lower-case expected encoding `ab`;
the non-hex value `zz` is rejected with INVALID_SIGNATURE. -/
theorem hex_case_insensitive_witness :
    verifySignature (fun _ _ => [171]) "t=5,v1=AB" "" none 5 = .ok () ∧
    exceptCode (verifySignature (fun _ _ => [171]) "t=5,v1=zz" "" none 5) =
      some "INVALID_SIGNATURE" :=
  ⟨(hex_case_insensitive (fun _ _ => [171]) "t=5,v1=AB" "" none 5 5 "AB" rfl (by decide)
      (by decide)).1 (by decide),
   (hex_case_insensitive (fun _ _ => [171]) "t=5,v1=zz" "" none 5 5 "zz" rfl (by decide)
      (by decide)).2 (by decide)⟩

end Sailhouse


